import Mathlib

/-
  Verification development for the SAP HANA calculation-view analyzer
  (src/function.py): a shallow embedding of analyze_cv and
  generate_graphviz_dot, together with theorems about the claims of the
  specification.

  Conventions of the embedding:
  * Python strings that may be None are Option String; f-string rendering
    of a possibly-None value is pyShow (None prints as "None").
  * Python exceptions are modelled by Except String; a dereference of None
    (AttributeError) is the function require; the pandas KeyError raised by
    column access on an empty DataFrame is modelled in pass1For.
  * ElementTree trees are XMLElem; find/findall compare resolved tag
    strings (a namespaced lookup uses the expanded "{uri}name" form).
  * str.replace / str.split / str.title / str.strip are re-implemented
    structurally (pyReplace, pySplit, pyTitle, pyStrip) so that closed
    computations reduce in the kernel; they follow Python semantics for
    the non-empty separators/patterns used by the source.
  * Python set iteration order (pass 1 of the graph generator) is fixed to
    first-insertion order; no theorem below depends on pass-1 emission
    order, only on the multiset of emitted statements.
-/

/-- Render an optional string the way a Python f-string renders the value
(None prints as "None"). -/
def pyShow : Option String → String
  | none => "None"
  | some s => s

/-- Python truthiness of a string-or-None value. -/
def pyTruthyOpt : Option String → Bool
  | none => false
  | some s => s ≠ ""

/-- Dereference a possibly-None value; None raises AttributeError, as in
Python when calling a method on None. -/
def require {α : Type} : Option α → Except String α
  | none => Except.error "AttributeError: NoneType"
  | some a => Except.ok a

/-- Python whitespace set used by str.strip(). -/
def pyIsSpace (c : Char) : Bool :=
  c = ' ' || c = '\t' || c = '\n' || c = '\r' || c = '\x0b' || c = '\x0c'

/-- Python str.strip() with no argument: drop leading and trailing whitespace. -/
def pyStrip (s : String) : String :=
  String.mk (((s.toList.dropWhile pyIsSpace).reverse.dropWhile pyIsSpace).reverse)

/-- Python str.strip("#"): drop leading and trailing hash marks. -/
def stripHash (s : String) : String :=
  String.mk (((s.toList.dropWhile (fun c => c = '#')).reverse.dropWhile (fun c => c = '#')).reverse)

/-- Fuel-driven core of Python str.replace: leftmost, non-overlapping,
replace all occurrences. The fuel is the length of the subject, enough
because every step consumes at least one character (patterns used by the
source are non-empty). -/
def pyReplaceAux (pat rep : List Char) : Nat → List Char → List Char
  | 0, s => s
  | _ + 1, [] => []
  | n + 1, c :: rest =>
    if pat ≠ [] ∧ pat.isPrefixOf (c :: rest) then
      rep ++ pyReplaceAux pat rep n ((c :: rest).drop pat.length)
    else
      c :: pyReplaceAux pat rep n rest

/-- Python str.replace(pat, rep) for non-empty pat. -/
def pyReplace (s pat rep : String) : String :=
  String.mk (pyReplaceAux pat.toList rep.toList s.toList.length s.toList)

/-- Fuel-driven core of Python str.split(sep) for a non-empty separator. -/
def pySplitAux (sep : List Char) : Nat → List Char → List Char → List (List Char)
  | 0, acc, s => [acc.reverse ++ s]
  | _ + 1, acc, [] => [acc.reverse]
  | n + 1, acc, c :: rest =>
    if sep.isPrefixOf (c :: rest) then
      acc.reverse :: pySplitAux sep n [] ((c :: rest).drop sep.length)
    else
      pySplitAux sep n (c :: acc) rest

/-- Python str.split(sep) for a non-empty separator. -/
def pySplit (s sep : String) : List String :=
  (pySplitAux sep.toList s.toList.length [] s.toList).map String.mk

/-- Python str.join over a list of strings. -/
def pyJoin (sep : String) : List String → String
  | [] => ""
  | [x] => x
  | x :: y :: xs => x ++ sep ++ pyJoin sep (y :: xs)

/-- Python str.title() for the ASCII identifiers the source humanizes:
a letter is uppercased when it follows a non-letter and lowercased
otherwise. -/
def pyTitleAux : Bool → List Char → List Char
  | _, [] => []
  | prevCased, c :: cs =>
    if c.isAlpha then
      (if prevCased then c.toLower else c.toUpper) :: pyTitleAux true cs
    else
      c :: pyTitleAux false cs

/-- Python str.title(). -/
def pyTitle (s : String) : String :=
  String.mk (pyTitleAux false s.toList)

/-- Decide whether one character list is a leading segment of another. -/
def listStartsWith : List Char → List Char → Bool
  | [], _ => true
  | _ :: _, [] => false
  | p :: ps, c :: cs => p == c && listStartsWith ps cs

/-- Decide whether a character list occurs inside another. -/
def listHasInfix : List Char → List Char → Bool
  | sub, [] => sub.isEmpty
  | sub, c :: cs => listStartsWith sub (c :: cs) || listHasInfix sub cs

/-- Substring test, Python "sub in s". -/
def strContains (s sub : String) : Bool :=
  listHasInfix sub.toList s.toList

/-- Map a fallible function over a list, stopping at the first error
(the semantics of a Python list comprehension whose body may raise). -/
def exceptMap {α β : Type} (f : α → Except String β) : List α → Except String (List β)
  | [] => Except.ok []
  | x :: xs =>
    match f x with
    | Except.error e => Except.error e
    | Except.ok y =>
      match exceptMap f xs with
      | Except.error e => Except.error e
      | Except.ok ys => Except.ok (y :: ys)

/-- Concatenate the outputs of a fallible list-producing function,
stopping at the first error. -/
def exceptFlatMap {α β : Type} (f : α → Except String (List β)) : List α → Except String (List β)
  | [] => Except.ok []
  | x :: xs =>
    match f x with
    | Except.error e => Except.error e
    | Except.ok y =>
      match exceptFlatMap f xs with
      | Except.error e => Except.error e
      | Except.ok ys => Except.ok (y ++ ys)

/-- An ElementTree element: resolved tag, attribute mapping, text before
the first child, and child elements. A namespaced tag is stored in the
expanded "{uri}name" form, exactly as ElementTree resolves it. -/
inductive XMLElem : Type where
  | mk : String → List (String × String) → Option String → List XMLElem → XMLElem

def XMLElem.tag : XMLElem → String
  | .mk t _ _ _ => t

def XMLElem.attrs : XMLElem → List (String × String)
  | .mk _ a _ _ => a

def XMLElem.text : XMLElem → Option String
  | .mk _ _ tx _ => tx

def XMLElem.children : XMLElem → List XMLElem
  | .mk _ _ _ c => c

/-- ElementTree Element.find: first direct child with the given resolved tag. -/
def findEl (e : XMLElem) (t : String) : Option XMLElem :=
  e.children.find? (fun c => c.tag == t)

/-- ElementTree Element.findall: all direct children with the given resolved tag. -/
def findallEl (e : XMLElem) (t : String) : List XMLElem :=
  e.children.filter (fun c => c.tag == t)

/-- Element.attrib.get(key): optional attribute lookup. -/
def attrGet (e : XMLElem) (k : String) : Option String :=
  (e.attrs.find? (fun p => p.1 == k)).map (fun p => p.2)

/-- Element.attrib.get(key, default). -/
def attrGetD (e : XMLElem) (k dflt : String) : String :=
  (attrGet e k).getD dflt

/-- The schema-instance type discriminator attribute, as ElementTree
resolves the namespaced lookup in the source. -/
def xsiTypeAttr : String := "\x7bhttp://www.w3.org/2001/XMLSchema-instance\x7dtype"

/-- The Calculation-namespace joinAttribute tag used by the namespaced
findall in the source. -/
def calcNsJoinAttr : String := "\x7bhttp://www.sap.com/ndb/BiModelCalculation.ecore\x7djoinAttribute"

/-- Section 1 of analyze_cv: the general-information record. -/
structure GeneralInfo : Type where
  id : Option String
  type : Option String
  visibility : Option String
  calculationScenarioType : Option String
  outputViewType : Option String
  changedAt : Option String
deriving DecidableEq, Repr

/-- One row of the data-source table built in section 2 of analyze_cv,
with columns ID, Name, Type, Schema (Type_ stands for the reserved word). -/
structure DataSourceRow : Type where
  ID : Option String
  Name : Option String
  Type_ : Option String
  Schema : Option String
deriving DecidableEq, Repr

/-- The join-detail record synthesized for a two-input JoinView. -/
structure JoinDetail : Type where
  join_type : Option String
  left_table : String
  right_table : String
  joinAttribute : Option String
  join_columns : List (Option String)
deriving DecidableEq, Repr

/-- One calculated-attribute record of a node. -/
structure CalcAttr : Type where
  id : Option String
  datatype : Option String
  formula : Option String
deriving DecidableEq, Repr

/-- The per-node record stored in the calc_views mapping. -/
structure ViewDetails : Type where
  type : String
  inputs : List String
  filters : Option String
  join_attributes : List (Option String)
  join_details : List JoinDetail
  calculated_attributes : List CalcAttr
deriving DecidableEq, Repr

/-- One row of the final-output attributes table. -/
structure FinalAttr : Type where
  technicalId : Option String
  description : String
deriving DecidableEq, Repr

/-- One row of the final-output measures table. -/
structure FinalMeasure : Type where
  technicalId : Option String
  aggregationType : Option String
  description : String
deriving DecidableEq, Repr

/-- The full result dictionary of analyze_cv. data_sources is the
deduplicated table; calculation_views preserves dictionary insertion
order with unique keys. -/
structure Analysis : Type where
  general : GeneralInfo
  data_sources : List DataSourceRow
  calculation_views : List (Option String × ViewDetails)
  final_output_attributes : List FinalAttr
  final_output_measures : List FinalMeasure
deriving DecidableEq, Repr

/-- Section 1 of analyze_cv. -/
def extractGeneral (root : XMLElem) : GeneralInfo :=
  { id := attrGet root "id"
    type := attrGet root "dataCategory"
    visibility := attrGet root "visibility"
    calculationScenarioType := attrGet root "calculationScenarioType"
    outputViewType := attrGet root "outputViewType"
    changedAt :=
      match findEl root "metadata" with
      | some m => attrGet m "changedAt"
      | none => some "N/A" }

/-- The DataSource elements considered by section 2 of analyze_cv. -/
def sourceElems (root : XMLElem) : List XMLElem :=
  match findEl root "dataSources" with
  | some e => findallEl e "DataSource"
  | none => []

/-- Section 2 of analyze_cv for one DataSource element. Name and schema
default to the empty string; a table source reads them from an optional
columnObject child; a referenced view splits the resourceUri text on "/"
(dereferencing the text, which raises when absent). -/
def extractDataSource (s : XMLElem) : Except String DataSourceRow :=
  if attrGet s "type" = some "DATA_BASE_TABLE" then
    match findEl s "columnObject" with
    | some co =>
      Except.ok ⟨attrGet s "id", attrGet co "columnObjectName", attrGet s "type",
        attrGet co "schemaName"⟩
    | none => Except.ok ⟨attrGet s "id", some "", attrGet s "type", some ""⟩
  else if attrGet s "type" = some "CALCULATION_VIEW" then
    match findEl s "resourceUri" with
    | some ru =>
      match require ru.text with
      | Except.error e => Except.error e
      | Except.ok t =>
        Except.ok ⟨attrGet s "id", some ((pySplit t "/").getLastD ""),
          attrGet s "type", some (pyJoin "/" (((pySplit t "/").drop 1).dropLast))⟩
    | none => Except.ok ⟨attrGet s "id", some "", attrGet s "type", some ""⟩
  else
    Except.ok ⟨attrGet s "id", some "", attrGet s "type", some ""⟩

/-- Section 2 of analyze_cv over the whole document. -/
def extractDataSources (root : XMLElem) : Except String (List DataSourceRow) :=
  exceptMap extractDataSource (sourceElems root)

/-- The (Type, Name, Schema) triple that drop_duplicates keys on. -/
def tripleOf (r : DataSourceRow) : Option String × Option String × Option String :=
  (r.Type_, r.Name, r.Schema)

/-- pandas drop_duplicates(subset=["Type", "Name", "Schema"]): keep the
first row of each triple, preserving order. On an empty frame pandas
returns the empty frame. -/
def dedupTNS (seen : List (Option String × Option String × Option String)) :
    List DataSourceRow → List DataSourceRow
  | [] => []
  | r :: rs =>
    if tripleOf r ∈ seen then dedupTNS seen rs
    else r :: dedupTNS (tripleOf r :: seen) rs

/-- The calculationView elements considered by section 3 of analyze_cv. -/
def viewElems (root : XMLElem) : List XMLElem :=
  match findEl root "calculationViews" with
  | some e => findallEl e "calculationView"
  | none => []

/-- Join details of a node: synthesized only for a JoinView with exactly
two input children, dereferencing their node attributes. -/
def extractJoinDetails (v : XMLElem) (view_type : String) : Except String (List JoinDetail) :=
  if view_type = "JoinView" then
    match findallEl v "input" with
    | [i1, i2] =>
      match require (attrGet i1 "node") with
      | Except.error e => Except.error e
      | Except.ok n1 =>
        match require (attrGet i2 "node") with
        | Except.error e => Except.error e
        | Except.ok n2 =>
          let ja : Option String :=
            match findEl v "joinAttribute" with
            | some jae => attrGet jae "name"
            | none => some ""
          Except.ok [⟨attrGet v "joinType", stripHash n1, stripHash n2, ja,
            (findallEl v "joinAttribute").map (fun a => attrGet a "name")⟩]
    | _ => Except.ok []
  else Except.ok []

/-- Calculated attributes of a node; a missing formula child yields the
sentinel "N/A", a formula child contributes its (possibly absent) text. -/
def extractCalcAttrs (v : XMLElem) : List CalcAttr :=
  match findEl v "calculatedViewAttributes" with
  | none => []
  | some ce =>
    (findallEl ce "calculatedViewAttribute").map (fun ca =>
      { id := attrGet ca "id"
        datatype := attrGet ca "datatype"
        formula :=
          match findEl ca "formula" with
          | some fe => fe.text
          | none => some "N/A" })

/-- The filter expression of a node: the raw text of an optional filter
child, with absent, empty or whitespace-only text counting as no filter. -/
def extractFilterExpr (v : XMLElem) : Option String :=
  match findEl v "filter" with
  | some f =>
    match f.text with
    | some t => if t ≠ "" ∧ pyStrip t ≠ "" then some t else none
    | none => none
  | none => none

/-- Section 3 of analyze_cv for one calculationView element. The type
discriminator is dereferenced (raising when absent) and its last
colon-separated segment kept; each input dereferences its node attribute
and strips anchor hashes; a blank or whitespace-only filter text counts
as no filter. -/
def extractCalcView (v : XMLElem) : Except String (Option String × ViewDetails) :=
  match require (attrGet v xsiTypeAttr) with
  | Except.error e => Except.error e
  | Except.ok tyRaw =>
    match exceptMap (fun i =>
        match require (attrGet i "node") with
        | Except.error e => Except.error e
        | Except.ok n => Except.ok (stripHash n)) (findallEl v "input") with
    | Except.error e => Except.error e
    | Except.ok inputs =>
      match extractJoinDetails v ((pySplit tyRaw ":").getLastD "") with
      | Except.error e => Except.error e
      | Except.ok join_details =>
        Except.ok (attrGet v "id",
          { type := (pySplit tyRaw ":").getLastD ""
            inputs := inputs
            filters := extractFilterExpr v
            join_attributes := (findallEl v calcNsJoinAttr).map (fun a => attrGet a "name")
            join_details := join_details
            calculated_attributes := extractCalcAttrs v })

/-- Python dict assignment: an existing key is overwritten in place, a
new key is appended. -/
def dictInsert (l : List (Option String × ViewDetails)) (k : Option String) (v : ViewDetails) :
    List (Option String × ViewDetails) :=
  if l.any (fun p => p.1 == k) then
    l.map (fun p => if p.1 == k then (k, v) else p)
  else l ++ [(k, v)]

/-- Section 3 of analyze_cv over the whole document, building the
insertion-ordered mapping. -/
def exceptFoldViews : List XMLElem → List (Option String × ViewDetails) →
    Except String (List (Option String × ViewDetails))
  | [], acc => Except.ok acc
  | v :: vs, acc =>
    match extractCalcView v with
    | Except.error e => Except.error e
    | Except.ok kv => exceptFoldViews vs (dictInsert acc kv.1 kv.2)

/-- The transformation-node mapping of the document. -/
def extractCalcViews (root : XMLElem) : Except String (List (Option String × ViewDetails)) :=
  exceptFoldViews (viewElems root) []

/-- Section 4 of analyze_cv: the final-output attribute rows; absent
logicalModel (or attributes container) yields the empty list. -/
def extractFinalAttrs (root : XMLElem) : List FinalAttr :=
  match findEl root "logicalModel" with
  | none => []
  | some lm =>
    match findEl lm "attributes" with
    | none => []
    | some ae =>
      (findallEl ae "attribute").map (fun a =>
        { technicalId := attrGet a "id"
          description :=
            match findEl a "descriptions" with
            | some d => attrGetD d "defaultDescription" ""
            | none => "" })

/-- Section 4 of analyze_cv: the final-output measure rows. -/
def extractFinalMeasures (root : XMLElem) : List FinalMeasure :=
  match findEl root "logicalModel" with
  | none => []
  | some lm =>
    match findEl lm "baseMeasures" with
    | none => []
    | some me =>
      (findallEl me "measure").map (fun m =>
        { technicalId := attrGet m "id"
          aggregationType := attrGet m "aggregationType"
          description :=
            match findEl m "descriptions" with
            | some d => attrGetD d "defaultDescription" ""
            | none => "" })

/-- analyze_cv on a parsed document tree: sections 1-4 in source order,
an exception in any section aborting the run. -/
def analyzeCV (root : XMLElem) : Except String Analysis :=
  let general := extractGeneral root
  match extractDataSources root with
  | Except.error e => Except.error e
  | Except.ok ds =>
    match extractCalcViews root with
    | Except.error e => Except.error e
    | Except.ok views =>
      Except.ok
        { general := general
          data_sources := dedupTNS [] ds
          calculation_views := views
          final_output_attributes := extractFinalAttrs root
          final_output_measures := extractFinalMeasures root }

/-- The parse wrapper of analyze_cv (lines 23-28): the outcome of
ET.fromstring is either a tree or a ParseError diagnostic, and a
diagnostic is re-raised as ValueError with the prefixed message. -/
def analyzeCVFrom (parseResult : Except String XMLElem) : Except String Analysis :=
  match parseResult with
  | Except.error e => Except.error ("XML parsing failed: " ++ e)
  | Except.ok root => analyzeCV root

/-- One statement of the emitted DOT description: a node declaration
(name, label, shape) or an edge declaration (tail, head, label). Style
attributes not referenced by any claim are omitted. -/
inductive Stmt : Type where
  | node : String → String → String → Stmt
  | edge : String → String → String → Stmt
deriving DecidableEq, Repr

/-- Shape of a node statement (edges have no shape). -/
def stmtShape : Stmt → String
  | Stmt.node _ _ sh => sh
  | Stmt.edge _ _ _ => ""

/-- Test for an edge statement whose head is the given vertex. -/
def isEdgeTo (t : String) : Stmt → Bool
  | Stmt.edge _ d _ => d == t
  | Stmt.node _ _ _ => false

/-- Test for a node statement with the given name. -/
def isNodeWithId (t : String) : Stmt → Bool
  | Stmt.node i _ _ => i == t
  | Stmt.edge _ _ _ => false

/-- The pandas row lookup source_df[source_df["ID"] == node_id]: a row
matches only when both values are non-null and equal (pandas comparisons
with a null yield False). -/
def idMatches (rid nid : Option String) : Bool :=
  match rid, nid with
  | some a, some b => a == b
  | _, _ => false

/-- First-occurrence deduplication of the vertex name set (the Python
set union of view keys and deduplicated data-source IDs; iteration order
is fixed to insertion order, see the header note). -/
def dedupKeys : List (Option String) → List (Option String)
  | [] => []
  | k :: ks => if k ∈ dedupKeys ks then dedupKeys ks else k :: dedupKeys ks

/-- All vertex names of the first pass: view keys then data-source IDs,
deduplicated keeping the first occurrence. -/
def dedupKeysFwd (seen : List (Option String)) : List (Option String) → List (Option String)
  | [] => []
  | k :: ks => if k ∈ seen then dedupKeysFwd seen ks else k :: dedupKeysFwd (k :: seen) ks

/-- all_nodes of generate_graphviz_dot. -/
def allNodes (a : Analysis) : List (Option String) :=
  dedupKeysFwd [] (a.calculation_views.map (fun p => p.1) ++ a.data_sources.map (fun r => r.ID))

/-- First pass of generate_graphviz_dot for one vertex name. Column
access on the empty deduplicated frame raises KeyError; a matched
data-source row is labeled from its Name and humanized Type
(dereferencing Type); otherwise a known view gets a humanized box label,
and an unknown name a fallback box. The vertex name itself is
dereferenced where Python would pass None to graphviz. -/
def pass1For (a : Analysis) (nid : Option String) : Except String Stmt :=
  if a.data_sources.isEmpty then Except.error "KeyError: ID"
  else
    match a.data_sources.filter (fun r => idMatches r.ID nid) with
    | r :: _ =>
      match require r.Type_ with
      | Except.error e => Except.error e
      | Except.ok ty =>
        let lbl := pyShow r.Name ++ "\\n(" ++
          pyReplace (pyReplace ty "DATA_BASE_TABLE" "Table") "CALCULATION_VIEW" "View" ++ ")"
        match require nid with
        | Except.error e => Except.error e
        | Except.ok n => Except.ok (Stmt.node n lbl "cylinder")
    | [] =>
      match a.calculation_views.find? (fun p => p.1 == nid) with
      | some kv =>
        match require nid with
        | Except.error e => Except.error e
        | Except.ok n =>
          Except.ok (Stmt.node n
            (pyTitle (pyReplace n "_" " ") ++ "\\n(" ++ pyReplace kv.2.type "View" "" ++ ")") "box")
      | none =>
        match require nid with
        | Except.error e => Except.error e
        | Except.ok n => Except.ok (Stmt.node n (pyTitle (pyReplace n "_" " ")) "box")

/-- Label of the synthetic output vertex: the total column count of the
final schema. -/
def outputLabel (a : Analysis) : String :=
  "Output\\n(" ++ toString (a.final_output_attributes.length + a.final_output_measures.length) ++
    " columns)"

/-- Second pass, calculated-attributes annotation of one node: a note
vertex listing every id and formula plus an edge to the node vertex
(dereferencing the node key). -/
def calcNodeStmts (k : Option String) (d : ViewDetails) : Except String (List Stmt) :=
  if d.calculated_attributes.isEmpty then Except.ok []
  else
    let cid := pyShow k ++ "_calc"
    let lbl := "Calculated Attributes\\n" ++
      pyJoin "\\n" (d.calculated_attributes.map (fun c => pyShow c.id ++ ": " ++ pyShow c.formula))
    match require k with
    | Except.error e => Except.error e
    | Except.ok dst => Except.ok [Stmt.node cid lbl "note", Stmt.edge cid dst ""]

/-- Label of a filter annotation vertex: the filter text with every
" and " replaced by a line break (empty for a falsy filter value). -/
def filterLabel (d : ViewDetails) : String :=
  match d.filters with
  | some s => if s ≠ "" then "(Filters)\n" ++ pyReplace s " and " "\n" else ""
  | none => ""

/-- Second pass, filter annotation of one node: a note vertex whose label
replaces " and " by a line break, plus an edge to the calc annotation if
one exists, else to the node vertex. -/
def filterNodeStmts (k : Option String) (d : ViewDetails) : Except String (List Stmt) :=
  if pyTruthyOpt d.filters then
    let fid := pyShow k ++ "_filter"
    if d.calculated_attributes.isEmpty then
      match require k with
      | Except.error e => Except.error e
      | Except.ok dst => Except.ok [Stmt.node fid (filterLabel d) "note", Stmt.edge fid dst ""]
    else
      Except.ok [Stmt.node fid (filterLabel d) "note",
        Stmt.edge fid (pyShow k ++ "_calc") ""]
  else Except.ok []

/-- The edge label of a join node: the humanized join kind followed by
one equality condition per entry of join_columns, joined by " AND ".
Dereferences the join kind; nodes without join details yield "". -/
def joinLabel (d : ViewDetails) : Except String String :=
  match d.join_details with
  | [] => Except.ok ""
  | jd :: _ =>
    match require jd.join_type with
    | Except.error e => Except.error e
    | Except.ok jt =>
      let jt2 := pyReplace (pyReplace (pyReplace jt "outer" "Outer") "inner" "Inner") "text" "Text"
      let parts :=
        if jd.join_columns.isEmpty then ["Type: " ++ jt2]
        else ["Type: " ++ jt2,
          pyJoin " AND " (jd.join_columns.map (fun c =>
            jd.left_table ++ "." ++ pyShow c ++ " = " ++ jd.right_table ++ "." ++ pyShow c))]
      Except.ok (pyJoin "\n" parts)

/-- The target of an input edge: the filter annotation if the node has a
filter, else the calc annotation if it has derived columns, else the
node vertex itself. -/
def edgeTarget (k : Option String) (d : ViewDetails) : Option String :=
  if pyTruthyOpt d.filters then some (pyShow k ++ "_filter")
  else if d.calculated_attributes.isEmpty then k
  else some (pyShow k ++ "_calc")

/-- Second pass, input edges of one node: one labeled edge per input
reference (re-stripping anchor hashes), each into the node's chain entry
(dereferencing the target when it is the possibly-None node key). -/
def inputEdges (k : Option String) (d : ViewDetails) : Except String (List Stmt) :=
  exceptMap (fun i =>
    match joinLabel d with
    | Except.error e => Except.error e
    | Except.ok lbl =>
      match require (edgeTarget k d) with
      | Except.error e => Except.error e
      | Except.ok dst => Except.ok (Stmt.edge (stripHash i) dst lbl)) d.inputs

/-- All second-pass statements of one node, in source emission order:
calc annotation, filter annotation, then input edges. -/
def viewStmts (k : Option String) (d : ViewDetails) : Except String (List Stmt) :=
  match calcNodeStmts k d with
  | Except.error e => Except.error e
  | Except.ok c =>
    match filterNodeStmts k d with
    | Except.error e => Except.error e
    | Except.ok f =>
      match inputEdges k d with
      | Except.error e => Except.error e
      | Except.ok i => Except.ok (c ++ f ++ i)

/-- Source vertex of the final output edge (lines 356-360): the calc
annotation of the last node if it has derived columns, else its filter
annotation if it has a filter, else the node vertex itself. -/
def effectiveOutSource (k : Option String) (d : ViewDetails) : Option String :=
  if d.calculated_attributes.isEmpty then
    if pyTruthyOpt d.filters then some (pyShow k ++ "_filter") else k
  else some (pyShow k ++ "_calc")

/-- The final output edge: absent when there are no transformation
nodes, otherwise one edge from the last node's effective source into the
output vertex. -/
def outputEdge (a : Analysis) (outId : String) : Except String (List Stmt) :=
  match a.calculation_views.getLast? with
  | none => Except.ok []
  | some kv =>
    match require (effectiveOutSource kv.1 kv.2) with
    | Except.error e => Except.error e
    | Except.ok src => Except.ok [Stmt.edge src outId ""]

/-- generate_graphviz_dot on an analysis: first pass over all vertex
names, the output vertex, the per-node second pass in mapping order, and
the final output edge. -/
def generateGraphvizDot (a : Analysis) : Except String (List Stmt) :=
  match exceptMap (pass1For a) (allNodes a) with
  | Except.error e => Except.error e
  | Except.ok p1 =>
    match require a.general.id with
    | Except.error e => Except.error e
    | Except.ok outId =>
      match exceptFlatMap (fun p => viewStmts p.1 p.2) a.calculation_views with
      | Except.error e => Except.error e
      | Except.ok p2 =>
        match outputEdge a outId with
        | Except.error e => Except.error e
        | Except.ok oe =>
          Except.ok (p1 ++ [Stmt.node outId (outputLabel a) "oval"] ++ p2 ++ oe)

/-- Extraction followed by graph generation. -/
def pipeline (root : XMLElem) : Except String (List Stmt) :=
  match analyzeCV root with
  | Except.error e => Except.error e
  | Except.ok a => generateGraphvizDot a

/-- A vacuous analysis, used only as the default of analysisOf. -/
def emptyAnalysis : Analysis :=
  ⟨⟨none, none, none, none, none, none⟩, [], [], [], []⟩

/-- The extracted analysis of a document (default value when extraction
fails; used only on documents where it succeeds). -/
def analysisOf (root : XMLElem) : Analysis :=
  (analyzeCV root).toOption.getD emptyAnalysis

/-- The generated statements of a document (default value when the
pipeline fails; used only on documents where it succeeds). -/
def stmtsOf (root : XMLElem) : List Stmt :=
  (pipeline root).toOption.getD []

/-- A physical-table DataSource element (id DS_1, table T1, schema S1). -/
def dsOne : XMLElem :=
  XMLElem.mk "DataSource" [("id", "DS_1"), ("type", "DATA_BASE_TABLE")] none
    [XMLElem.mk "columnObject" [("columnObjectName", "T1"), ("schemaName", "S1")] none []]

/-- A second physical-table DataSource element (id DS_2, table T2, schema S1). -/
def dsTwo : XMLElem :=
  XMLElem.mk "DataSource" [("id", "DS_2"), ("type", "DATA_BASE_TABLE")] none
    [XMLElem.mk "columnObject" [("columnObjectName", "T2"), ("schemaName", "S1")] none []]

/-- A DataSource element with id DS_2 whose (type, name, schema) triple
duplicates dsOne. -/
def dsDupOfOne : XMLElem :=
  XMLElem.mk "DataSource" [("id", "DS_2"), ("type", "DATA_BASE_TABLE")] none
    [XMLElem.mk "columnObject" [("columnObjectName", "T1"), ("schemaName", "S1")] none []]

/-- A two-input inner-join node V1 over DS_1 and DS_2 with declared
join-attribute names A and B. -/
def vJoin : XMLElem :=
  XMLElem.mk "calculationView"
    [("id", "V1"), (xsiTypeAttr, "Calculation:JoinView"), ("joinType", "inner")] none
    [XMLElem.mk "input" [("node", "#DS_1")] none [],
     XMLElem.mk "input" [("node", "#DS_2")] none [],
     XMLElem.mk "joinAttribute" [("name", "A")] none [],
     XMLElem.mk "joinAttribute" [("name", "B")] none []]

/-- A join node like vJoin but with a single input. -/
def vJoinOneInput : XMLElem :=
  XMLElem.mk "calculationView"
    [("id", "V9"), (xsiTypeAttr, "Calculation:JoinView"), ("joinType", "inner")] none
    [XMLElem.mk "input" [("node", "#DS_1")] none [],
     XMLElem.mk "joinAttribute" [("name", "A")] none []]

/-- A projection node V1 with one input, a filter, and one calculated
attribute. -/
def vBoth : XMLElem :=
  XMLElem.mk "calculationView"
    [("id", "V1"), (xsiTypeAttr, "Calculation:ProjectionView")] none
    [XMLElem.mk "input" [("node", "#DS_1")] none [],
     XMLElem.mk "filter" [] (some "X > 1 and Y < 2") [],
     XMLElem.mk "calculatedViewAttributes" [] none
       [XMLElem.mk "calculatedViewAttribute" [("id", "CC1"), ("datatype", "INTEGER")] none
         [XMLElem.mk "formula" [] (some "1+1") []]]]

/-- A plain projection node V1 with one input and no annotations. -/
def vProj : XMLElem :=
  XMLElem.mk "calculationView"
    [("id", "V1"), (xsiTypeAttr, "Calculation:ProjectionView")] none
    [XMLElem.mk "input" [("node", "#DS_1")] none []]

/-- A referenced-view DataSource element with resource path /pkg/sub/CV. -/
def dsRefView : XMLElem :=
  XMLElem.mk "DataSource" [("id", "DS9"), ("type", "CALCULATION_VIEW")] none
    [XMLElem.mk "resourceUri" [] (some "/pkg/sub/CV") []]

/-- A logical model with one attribute and no measures. -/
def lmOneCol : XMLElem :=
  XMLElem.mk "logicalModel" [] none
    [XMLElem.mk "attributes" [] none
      [XMLElem.mk "attribute" [("id", "COL1")] none
        [XMLElem.mk "descriptions" [("defaultDescription", "Col one")] none []]]]

/-- Document with a two-source inner join and a one-column logical model. -/
def dJoin : XMLElem :=
  XMLElem.mk "Calculation:scenario" [("id", "CV_OUT")] none
    [XMLElem.mk "dataSources" [] none [dsOne, dsTwo],
     XMLElem.mk "calculationViews" [] none [vJoin],
     lmOneCol]

/-- Document whose single node has both a filter and a calculated
attribute. -/
def dBoth : XMLElem :=
  XMLElem.mk "Calculation:scenario" [("id", "CV_OUT")] none
    [XMLElem.mk "dataSources" [] none [dsOne],
     XMLElem.mk "calculationViews" [] none [vBoth],
     lmOneCol]

/-- Well-formed document whose single node lacks the type discriminator
attribute. -/
def dNoTy : XMLElem :=
  XMLElem.mk "Calculation:scenario" [("id", "CV_OUT")] none
    [XMLElem.mk "dataSources" [] none [dsOne],
     XMLElem.mk "calculationViews" [] none [XMLElem.mk "calculationView" [("id", "V1")] none []],
     lmOneCol]

/-- Document with two DataSource elements of identical (type, name,
schema) triples under different identifiers. -/
def dDup : XMLElem :=
  XMLElem.mk "Calculation:scenario" [("id", "CV_OUT")] none
    [XMLElem.mk "dataSources" [] none [dsOne, dsDupOfOne],
     XMLElem.mk "calculationViews" [] none [vProj],
     lmOneCol]

/-- Well-formed document whose single node has an input element without
a node attribute. -/
def dNoNode : XMLElem :=
  XMLElem.mk "Calculation:scenario" [("id", "CV_OUT")] none
    [XMLElem.mk "dataSources" [] none [dsOne],
     XMLElem.mk "calculationViews" [] none
       [XMLElem.mk "calculationView"
         [("id", "V1"), (xsiTypeAttr, "Calculation:ProjectionView")] none
         [XMLElem.mk "input" [] none []]],
     lmOneCol]

/-- Well-formed document with no logicalModel section whose single node
lacks the type discriminator attribute. -/
def dC8bad : XMLElem :=
  XMLElem.mk "Calculation:scenario" [("id", "CV_OUT")] none
    [XMLElem.mk "dataSources" [] none [dsOne],
     XMLElem.mk "calculationViews" [] none
       [XMLElem.mk "calculationView" [("id", "V1")] none
         [XMLElem.mk "input" [("node", "#DS_1")] none []]]]

/-- Well-formed document with no logicalModel section that extracts and
compiles cleanly. -/
def dNoLM : XMLElem :=
  XMLElem.mk "Calculation:scenario" [("id", "CV_OUT")] none
    [XMLElem.mk "dataSources" [] none [dsOne],
     XMLElem.mk "calculationViews" [] none [vProj]]

theorem require_ok {α : Type} {o : Option α} {x : α} (h : require o = Except.ok x) :
    o = some x := by
  cases o with
  | none => simp [require] at h
  | some a => simp [require] at h; rw [h]

theorem require_some {α : Type} {o : Option α} {x : α} (h : o = some x) :
    require o = Except.ok x := by
  rw [h]; rfl

theorem exceptMap_cons_ok {α β : Type} {f : α → Except String β} {x : α} {xs : List α}
    {ys : List β} (h : exceptMap f (x :: xs) = Except.ok ys) :
    ∃ y ys2, f x = Except.ok y ∧ exceptMap f xs = Except.ok ys2 ∧ ys = y :: ys2 := by
  cases hfx : f x with
  | error e => simp [exceptMap, hfx] at h
  | ok y =>
    cases hxs : exceptMap f xs with
    | error e => simp [exceptMap, hfx, hxs] at h
    | ok ys2 =>
      refine ⟨y, ys2, rfl, rfl, ?_⟩
      simp [exceptMap, hfx, hxs] at h
      exact h.symm

theorem exceptMap_ok_forall {α β : Type} {f : α → Except String β} :
    ∀ {l : List α} {ys : List β}, exceptMap f l = Except.ok ys →
      ∀ b ∈ ys, ∃ x ∈ l, f x = Except.ok b := by
  intro l
  induction l with
  | nil =>
    intro ys h b hb
    simp [exceptMap] at h
    subst h
    simp at hb
  | cons x xs ih =>
    intro ys h b hb
    obtain ⟨y, ys2, hfx, hxs, rfl⟩ := exceptMap_cons_ok h
    rcases List.mem_cons.mp hb with hb | hb
    · exact ⟨x, List.mem_cons_self x xs, hb ▸ hfx⟩
    · obtain ⟨x2, hx2, hfx2⟩ := ih hxs b hb
      exact ⟨x2, List.mem_cons_of_mem x hx2, hfx2⟩

theorem exceptMap_ok_mem {α β : Type} {f : α → Except String β} :
    ∀ {l : List α} {ys : List β}, exceptMap f l = Except.ok ys →
      ∀ x ∈ l, ∃ y, f x = Except.ok y ∧ y ∈ ys := by
  intro l
  induction l with
  | nil => intro ys h x hx; simp at hx
  | cons a as ih =>
    intro ys h x hx
    obtain ⟨y, ys2, hfa, has, rfl⟩ := exceptMap_cons_ok h
    rcases List.mem_cons.mp hx with hx | hx
    · exact ⟨y, hx ▸ hfa, List.mem_cons_self y ys2⟩
    · obtain ⟨y2, hy2, hy2m⟩ := ih has x hx
      exact ⟨y2, hy2, List.mem_cons_of_mem y hy2m⟩

theorem exceptMap_ok_length {α β : Type} {f : α → Except String β} :
    ∀ {l : List α} {ys : List β}, exceptMap f l = Except.ok ys → ys.length = l.length := by
  intro l
  induction l with
  | nil => intro ys h; simp [exceptMap] at h; subst h; rfl
  | cons a as ih =>
    intro ys h
    obtain ⟨y, ys2, _, has, rfl⟩ := exceptMap_cons_ok h
    simp [ih has]

theorem exceptMap_ok_of_forall {α β : Type} {f : α → Except String β} :
    ∀ {l : List α}, (∀ x ∈ l, ∃ y, f x = Except.ok y) →
      ∃ ys, exceptMap f l = Except.ok ys := by
  intro l
  induction l with
  | nil => intro _; exact ⟨[], rfl⟩
  | cons a as ih =>
    intro h
    obtain ⟨y, hy⟩ := h a (List.mem_cons_self a as)
    obtain ⟨ys, hys⟩ := ih (fun x hx => h x (List.mem_cons_of_mem a hx))
    exact ⟨y :: ys, by simp [exceptMap, hy, hys]⟩

theorem exceptMap_eq_map {α β : Type} {f : α → Except String β} {g : α → β} :
    ∀ {l : List α}, (∀ x ∈ l, f x = Except.ok (g x)) →
      exceptMap f l = Except.ok (l.map g) := by
  intro l
  induction l with
  | nil => intro _; rfl
  | cons a as ih =>
    intro h
    have ha := h a (List.mem_cons_self a as)
    have has := ih (fun x hx => h x (List.mem_cons_of_mem a hx))
    simp [exceptMap, ha, has]

theorem exceptFlatMap_cons_ok {α β : Type} {f : α → Except String (List β)} {x : α}
    {xs : List α} {ys : List β} (h : exceptFlatMap f (x :: xs) = Except.ok ys) :
    ∃ y ys2, f x = Except.ok y ∧ exceptFlatMap f xs = Except.ok ys2 ∧ ys = y ++ ys2 := by
  cases hfx : f x with
  | error e => simp [exceptFlatMap, hfx] at h
  | ok y =>
    cases hxs : exceptFlatMap f xs with
    | error e => simp [exceptFlatMap, hfx, hxs] at h
    | ok ys2 =>
      refine ⟨y, ys2, rfl, rfl, ?_⟩
      simp [exceptFlatMap, hfx, hxs] at h
      exact h.symm

theorem exceptFlatMap_ok_forall {α β : Type} {f : α → Except String (List β)} :
    ∀ {l : List α} {ys : List β}, exceptFlatMap f l = Except.ok ys →
      ∀ b ∈ ys, ∃ x ∈ l, ∃ y, f x = Except.ok y ∧ b ∈ y := by
  intro l
  induction l with
  | nil =>
    intro ys h b hb
    simp [exceptFlatMap] at h
    subst h
    simp at hb
  | cons x xs ih =>
    intro ys h b hb
    obtain ⟨y, ys2, hfx, hxs, rfl⟩ := exceptFlatMap_cons_ok h
    rcases List.mem_append.mp hb with hb | hb
    · exact ⟨x, List.mem_cons_self x xs, y, hfx, hb⟩
    · obtain ⟨x2, hx2, y2, hy2, hb2⟩ := ih hxs b hb
      exact ⟨x2, List.mem_cons_of_mem x hx2, y2, hy2, hb2⟩

theorem exceptFlatMap_ok_mem {α β : Type} {f : α → Except String (List β)} :
    ∀ {l : List α} {ys : List β}, exceptFlatMap f l = Except.ok ys →
      ∀ x ∈ l, ∃ y, f x = Except.ok y ∧ ∀ b ∈ y, b ∈ ys := by
  intro l
  induction l with
  | nil => intro ys h x hx; simp at hx
  | cons a as ih =>
    intro ys h x hx
    obtain ⟨y, ys2, hfa, has, rfl⟩ := exceptFlatMap_cons_ok h
    rcases List.mem_cons.mp hx with hx | hx
    · exact ⟨y, hx ▸ hfa, fun b hb => List.mem_append.mpr (Or.inl hb)⟩
    · obtain ⟨y2, hy2, hy2m⟩ := ih has x hx
      exact ⟨y2, hy2, fun b hb => List.mem_append.mpr (Or.inr (hy2m b hb))⟩

theorem pass1For_ok_node {a : Analysis} {nid : Option String} {s : Stmt}
    (h : pass1For a nid = Except.ok s) :
    ∃ i lbl sh, s = Stmt.node i lbl sh ∧ nid = some i := by
  unfold pass1For at h
  split at h
  · simp at h
  · split at h
    · split at h
      · simp at h
      · split at h
        · simp at h
        · rename_i n hn
          simp only [Except.ok.injEq] at h
          exact ⟨n, _, _, h.symm, require_ok hn⟩
    · split at h
      · split at h
        · simp at h
        · rename_i n hn
          simp only [Except.ok.injEq] at h
          exact ⟨n, _, _, h.symm, require_ok hn⟩
      · split at h
        · simp at h
        · rename_i n hn
          simp only [Except.ok.injEq] at h
          exact ⟨n, _, _, h.symm, require_ok hn⟩

theorem calcNodeStmts_mem {k : Option String} {d : ViewDetails} {c : List Stmt}
    (h : calcNodeStmts k d = Except.ok c) :
    ∀ s ∈ c, (∃ lbl, s = Stmt.node (pyShow k ++ "_calc") lbl "note") ∨
      s = Stmt.edge (pyShow k ++ "_calc") (pyShow k) "" := by
  unfold calcNodeStmts at h
  split at h
  · simp only [Except.ok.injEq] at h
    subst h
    intro s hs
    simp at hs
  · split at h
    · simp at h
    · rename_i dst hdst
      have hk := require_ok hdst
      subst hk
      simp only [Except.ok.injEq] at h
      subst h
      intro s hs
      rcases List.mem_cons.mp hs with hs | hs
      · exact Or.inl ⟨_, hs⟩
      · simp only [List.mem_singleton] at hs
        exact Or.inr (by rw [hs]; rfl)

theorem filterNodeStmts_mem {k : Option String} {d : ViewDetails} {f : List Stmt}
    (h : filterNodeStmts k d = Except.ok f) :
    ∀ s ∈ f, (∃ lbl, s = Stmt.node (pyShow k ++ "_filter") lbl "note") ∨
      s = Stmt.edge (pyShow k ++ "_filter") (pyShow k) "" ∨
      s = Stmt.edge (pyShow k ++ "_filter") (pyShow k ++ "_calc") "" := by
  unfold filterNodeStmts at h
  split at h
  · split at h
    · split at h
      · simp at h
      · rename_i dst hdst
        have hk := require_ok hdst
        subst hk
        simp only [Except.ok.injEq] at h
        subst h
        intro s hs
        rcases List.mem_cons.mp hs with hs | hs
        · exact Or.inl ⟨_, hs⟩
        · simp only [List.mem_singleton] at hs
          exact Or.inr (Or.inl (by rw [hs]; rfl))
    · simp only [Except.ok.injEq] at h
      subst h
      intro s hs
      rcases List.mem_cons.mp hs with hs | hs
      · exact Or.inl ⟨_, hs⟩
      · simp only [List.mem_singleton] at hs
        exact Or.inr (Or.inr (by rw [hs]))
  · simp only [Except.ok.injEq] at h
    subst h
    intro s hs
    simp at hs

theorem edgeTarget_some {k : Option String} {d : ViewDetails} {dst : String}
    (h : edgeTarget k d = some dst) :
    dst = pyShow k ∨ dst = pyShow k ++ "_calc" ∨ dst = pyShow k ++ "_filter" := by
  unfold edgeTarget at h
  split at h
  · simp only [Option.some.injEq] at h
    exact Or.inr (Or.inr h.symm)
  · split at h
    · subst h
      exact Or.inl rfl
    · simp only [Option.some.injEq] at h
      exact Or.inr (Or.inl h.symm)

theorem inputEdges_mem {k : Option String} {d : ViewDetails} {il : List Stmt}
    (h : inputEdges k d = Except.ok il) :
    ∀ s ∈ il, ∃ src dst lbl, s = Stmt.edge src dst lbl ∧
      (dst = pyShow k ∨ dst = pyShow k ++ "_calc" ∨ dst = pyShow k ++ "_filter") := by
  intro s hs
  obtain ⟨x, _, hx⟩ := exceptMap_ok_forall h s hs
  revert hx
  cases hjl : joinLabel d with
  | error e => intro hx; simp [hjl] at hx
  | ok lbl =>
    cases het : require (edgeTarget k d) with
    | error e => intro hx; simp [hjl, het] at hx
    | ok dst =>
      intro hx
      simp only [hjl, het, Except.ok.injEq] at hx
      exact ⟨stripHash x, dst, lbl, hx.symm, edgeTarget_some (require_ok het)⟩

theorem viewStmts_parts {k : Option String} {d : ViewDetails} {l : List Stmt}
    (h : viewStmts k d = Except.ok l) :
    ∃ c f il, calcNodeStmts k d = Except.ok c ∧ filterNodeStmts k d = Except.ok f ∧
      inputEdges k d = Except.ok il ∧ l = c ++ f ++ il := by
  unfold viewStmts at h
  cases hc : calcNodeStmts k d with
  | error e => rw [hc] at h; simp at h
  | ok c =>
    rw [hc] at h
    cases hf : filterNodeStmts k d with
    | error e => rw [hf] at h; simp at h
    | ok f =>
      rw [hf] at h
      cases hi : inputEdges k d with
      | error e => rw [hi] at h; simp at h
      | ok il =>
        rw [hi] at h
        simp only [Except.ok.injEq] at h
        exact ⟨c, f, il, rfl, rfl, rfl, h.symm⟩

theorem viewStmts_edge_dst {k : Option String} {d : ViewDetails} {l : List Stmt}
    (h : viewStmts k d = Except.ok l) {src dst lbl : String}
    (hm : Stmt.edge src dst lbl ∈ l) :
    dst = pyShow k ∨ dst = pyShow k ++ "_calc" ∨ dst = pyShow k ++ "_filter" := by
  obtain ⟨c, f, il, hc, hf, hi, rfl⟩ := viewStmts_parts h
  rcases List.mem_append.mp hm with hm2 | hm2
  · rcases List.mem_append.mp hm2 with hm3 | hm3
    · rcases calcNodeStmts_mem hc _ hm3 with ⟨lbl2, he⟩ | he
      · exact absurd he (by simp)
      · injection he with h1 h2 h3
        exact Or.inl h2
    · rcases filterNodeStmts_mem hf _ hm3 with ⟨lbl2, he⟩ | he | he
      · exact absurd he (by simp)
      · injection he with h1 h2 h3
        exact Or.inl h2
      · injection he with h1 h2 h3
        exact Or.inr (Or.inl h2)
  · obtain ⟨src2, dst2, lbl2, he, hd⟩ := inputEdges_mem hi _ hm2
    injection he with h1 h2 h3
    exact h2 ▸ hd

theorem viewStmts_node_id {k : Option String} {d : ViewDetails} {l : List Stmt}
    (h : viewStmts k d = Except.ok l) {i lbl sh : String}
    (hm : Stmt.node i lbl sh ∈ l) :
    i = pyShow k ++ "_calc" ∨ i = pyShow k ++ "_filter" := by
  obtain ⟨c, f, il, hc, hf, hi, rfl⟩ := viewStmts_parts h
  rcases List.mem_append.mp hm with hm2 | hm2
  · rcases List.mem_append.mp hm2 with hm3 | hm3
    · rcases calcNodeStmts_mem hc _ hm3 with ⟨lbl2, he⟩ | he
      · injection he with h1 h2 h3
        exact Or.inl h1
      · exact absurd he (by simp)
    · rcases filterNodeStmts_mem hf _ hm3 with ⟨lbl2, he⟩ | he | he
      · injection he with h1 h2 h3
        exact Or.inr h1
      · exact absurd he (by simp)
      · exact absurd he (by simp)
  · obtain ⟨src2, dst2, lbl2, he, hd⟩ := inputEdges_mem hi _ hm2
    exact absurd he (by simp)

theorem outputEdge_ok_cases {a : Analysis} {outId : String} {oe : List Stmt}
    (h : outputEdge a outId = Except.ok oe) :
    (a.calculation_views.getLast? = none ∧ oe = []) ∨
    (∃ k d src, a.calculation_views.getLast? = some (k, d) ∧
      effectiveOutSource k d = some src ∧ oe = [Stmt.edge src outId ""]) := by
  unfold outputEdge at h
  split at h
  · rename_i hl
    simp only [Except.ok.injEq] at h
    exact Or.inl ⟨hl, h.symm⟩
  · rename_i kv hl
    split at h
    · simp at h
    · rename_i src hs
      simp only [Except.ok.injEq] at h
      exact Or.inr ⟨kv.1, kv.2, src, by rw [hl], require_ok hs, h.symm⟩

theorem generate_ok_parts {a : Analysis} {stmts : List Stmt}
    (h : generateGraphvizDot a = Except.ok stmts) :
    ∃ p1 outId p2 oe,
      exceptMap (pass1For a) (allNodes a) = Except.ok p1 ∧
      a.general.id = some outId ∧
      exceptFlatMap (fun p => viewStmts p.1 p.2) a.calculation_views = Except.ok p2 ∧
      outputEdge a outId = Except.ok oe ∧
      stmts = p1 ++ [Stmt.node outId (outputLabel a) "oval"] ++ p2 ++ oe := by
  unfold generateGraphvizDot at h
  split at h
  · simp at h
  · rename_i p1 h1
    split at h
    · simp at h
    · rename_i outId h2
      split at h
      · simp at h
      · rename_i p2 h3
        split at h
        · simp at h
        · rename_i oe h4
          simp only [Except.ok.injEq] at h
          exact ⟨p1, outId, p2, oe, h1, require_ok h2, h3, h4, h.symm⟩


/-- Decidable equality of extraction results, used to evaluate the
embedding at concrete inputs. -/
instance exceptDecEq {ε α : Type} [DecidableEq ε] [DecidableEq α] :
    DecidableEq (Except ε α) := fun a b =>
  match a, b with
  | Except.error e1, Except.error e2 =>
    if h : e1 = e2 then Decidable.isTrue (by rw [h])
    else Decidable.isFalse (by intro hc; cases hc; exact h rfl)
  | Except.error _, Except.ok _ => Decidable.isFalse (by intro hc; cases hc)
  | Except.ok _, Except.error _ => Decidable.isFalse (by intro hc; cases hc)
  | Except.ok v1, Except.ok v2 =>
    if h : v1 = v2 then Decidable.isTrue (by rw [h])
    else Decidable.isFalse (by intro hc; cases hc; exact h rfl)

/-- The ViewDetails record extracted from vJoin. -/
def vjJD : JoinDetail :=
  { join_type := some "inner", left_table := "DS_1", right_table := "DS_2",
    joinAttribute := some "A", join_columns := [some "A", some "B"] }

/-- Details of the two-input join node vJoin. -/
def vjDetails : ViewDetails :=
  { type := "JoinView", inputs := ["DS_1", "DS_2"], filters := none,
    join_attributes := [], join_details := [vjJD], calculated_attributes := [] }

/-- Details of the one-input join node vJoinOneInput. -/
def vj1Details : ViewDetails :=
  { type := "JoinView", inputs := ["DS_1"], filters := none,
    join_attributes := [], join_details := [], calculated_attributes := [] }

/-- Details of the filter-and-calc projection node vBoth. -/
def vbDetails : ViewDetails :=
  { type := "ProjectionView", inputs := ["DS_1"], filters := some "X > 1 and Y < 2",
    join_attributes := [], join_details := [],
    calculated_attributes := [⟨some "CC1", some "INTEGER", some "1+1"⟩] }

theorem extractCalcView_ok {v : XMLElem} {k : Option String} {d : ViewDetails}
    (h : extractCalcView v = Except.ok (k, d)) :
    ∃ tyRaw, attrGet v xsiTypeAttr = some tyRaw ∧
      d.type = (pySplit tyRaw ":").getLastD "" ∧
      d.inputs.length = (findallEl v "input").length ∧
      extractJoinDetails v d.type = Except.ok d.join_details ∧
      k = attrGet v "id" ∧
      d.calculated_attributes = extractCalcAttrs v := by
  unfold extractCalcView at h
  split at h
  · simp at h
  · rename_i tyRaw hty
    split at h
    · simp at h
    · rename_i inputs hinp
      split at h
      · simp at h
      · rename_i jds hjd
        simp only [Except.ok.injEq, Prod.mk.injEq] at h
        obtain ⟨hk, hd⟩ := h
        subst hd
        refine ⟨tyRaw, require_ok hty, rfl, ?_, hjd, hk.symm, rfl⟩
        exact exceptMap_ok_length hinp

theorem extractJoinDetails_len {v : XMLElem} {ty : String} {jds : List JoinDetail}
    (h : extractJoinDetails v ty = Except.ok jds) :
    jds.length ≤ 1 ∧ (jds.length = 1 ↔ (ty = "JoinView" ∧ (findallEl v "input").length = 2)) := by
  unfold extractJoinDetails at h
  split at h
  · rename_i hty
    split at h
    · rename_i i1 i2 heq
      split at h
      · simp at h
      · split at h
        · simp at h
        · simp only [Except.ok.injEq] at h
          subst h
          simp [hty, heq]
    · rename_i hno
      simp only [Except.ok.injEq] at h
      subst h
      refine ⟨by simp, ?_⟩
      simp only [List.length_nil]
      constructor
      · intro h0; simp at h0
      · rintro ⟨-, hlen2⟩
        obtain ⟨x, y, hxy⟩ := List.length_eq_two.mp hlen2
        exact (hno x y hxy).elim
  · rename_i hty
    simp only [Except.ok.injEq] at h
    subst h
    simp [hty]

/-- Claim C5: a transformation node of join kind whose declared inputs do
not number exactly two yields an empty JoinDetail sequence, whatever
other attributes the node carries. -/
theorem claim_C5 {v : XMLElem} {k : Option String} {d : ViewDetails}
    (hext : extractCalcView v = Except.ok (k, d))
    (hty : d.type = "JoinView")
    (hlen : d.inputs.length ≠ 2) :
    d.join_details = [] := by
  obtain ⟨tyRaw, _, _, hinlen, hjd, _, _⟩ := extractCalcView_ok hext
  obtain ⟨hle, hiff⟩ := extractJoinDetails_len hjd
  have hne : d.join_details.length ≠ 1 := by
    intro h1
    exact hlen (hinlen ▸ (hiff.mp h1).2)
  cases hl : d.join_details with
  | nil => rfl
  | cons jd rest =>
    rw [hl] at hle hne
    simp at hle
    rw [hle] at hne
    simp at hne

/-- Claim C5 witness: a concrete one-input join node extracts with an
empty JoinDetail sequence. -/
theorem claim_C5_witness :
    extractCalcView vJoinOneInput = Except.ok (some "V9", vj1Details) ∧
    vj1Details.join_details = [] :=
  ⟨by decide, @claim_C5 vJoinOneInput (some "V9") vj1Details (by decide) (by decide) (by decide)⟩

/-- Claim C9: a referenced-calculation-view data source with a non-empty
resource path extracts its name as the last path-separator-delimited
segment and its schema as the segments strictly between the first and the
last, rejoined by the separator. -/
theorem claim_C9 {s ru : XMLElem} {p : String}
    (hty : attrGet s "type" = some "CALCULATION_VIEW")
    (hru : findEl s "resourceUri" = some ru)
    (ht : ru.text = some p)
    (hp : p ≠ "") :
    extractDataSource s = Except.ok
      { ID := attrGet s "id"
        Name := some ((pySplit p "/").getLastD "")
        Type_ := some "CALCULATION_VIEW"
        Schema := some (pyJoin "/" (((pySplit p "/").drop 1).dropLast)) } := by
  unfold extractDataSource
  rw [hty, hru]
  simp [ht, require]

/-- Claim C9 witness: the path "/pkg/sub/CV" yields name "CV" and schema
"pkg/sub". -/
theorem claim_C9_witness :
    (pySplit "/pkg/sub/CV" "/").getLastD "" = "CV" ∧
    pyJoin "/" (((pySplit "/pkg/sub/CV" "/").drop 1).dropLast) = "pkg/sub" ∧
    extractDataSource dsRefView = Except.ok
      { ID := some "DS9", Name := some "CV", Type_ := some "CALCULATION_VIEW",
        Schema := some "pkg/sub" } :=
  ⟨by decide, by decide, by
    have h := @claim_C9 dsRefView (XMLElem.mk "resourceUri" [] (some "/pkg/sub/CV") [])
      "/pkg/sub/CV" (by decide) (by rfl) (by decide) (by decide)
    exact h.trans (by decide)⟩

/-- Claim C10: every successfully extracted transformation node carries
at most one JoinDetail, and exactly one precisely when the node is of
join kind with exactly two declared inputs. -/
theorem claim_C10 {v : XMLElem} {k : Option String} {d : ViewDetails}
    (hext : extractCalcView v = Except.ok (k, d)) :
    d.join_details.length ≤ 1 ∧
      (d.join_details.length = 1 ↔ (d.type = "JoinView" ∧ d.inputs.length = 2)) := by
  obtain ⟨tyRaw, _, _, hinlen, hjd, _, _⟩ := extractCalcView_ok hext
  obtain ⟨hle, hiff⟩ := extractJoinDetails_len hjd
  exact ⟨hle, by rw [hiff, hinlen]⟩

/-- Claim C10 witness: the concrete two-input join node vJoin carries
exactly one JoinDetail. -/
theorem claim_C10_witness :
    extractCalcView vJoin = Except.ok (some "V1", vjDetails) ∧
    vjDetails.join_details.length ≤ 1 ∧
      (vjDetails.join_details.length = 1 ↔
        (vjDetails.type = "JoinView" ∧ vjDetails.inputs.length = 2)) :=
  ⟨by decide, @claim_C10 vJoin (some "V1") vjDetails (by decide)⟩

theorem find_eq_head_filter {α : Type} (p : α → Bool) :
    ∀ l : List α, l.find? p = (l.filter p).head? := by
  intro l
  induction l with
  | nil => rfl
  | cons a as ih =>
    by_cases pa : p a
    · rw [List.find?_cons_of_pos as pa, List.filter_cons_of_pos pa]
      rfl
    · rw [List.find?_cons_of_neg as pa, List.filter_cons_of_neg pa, ih]

theorem findEl_eq_head {e : XMLElem} {t : String} :
    findEl e t = (findallEl e t).head? :=
  find_eq_head_filter _ e.children

theorem edgeTarget_isSome (vid : String) (d : ViewDetails) :
    ∃ tgt, edgeTarget (some vid) d = some tgt := by
  unfold edgeTarget
  split
  · exact ⟨_, rfl⟩
  · split
    · exact ⟨vid, rfl⟩
    · exact ⟨_, rfl⟩

theorem generate_view_mem {a : Analysis} {stmts : List Stmt} {k : Option String}
    {d : ViewDetails} (hgen : generateGraphvizDot a = Except.ok stmts)
    (hmem : (k, d) ∈ a.calculation_views) :
    ∃ l, viewStmts k d = Except.ok l ∧ ∀ s ∈ l, s ∈ stmts := by
  obtain ⟨p1, outId, p2, oe, h1, h2, h3, h4, rfl⟩ := generate_ok_parts hgen
  obtain ⟨l, hl, hsub⟩ := exceptFlatMap_ok_mem h3 (k, d) hmem
  refine ⟨l, hl, fun s hs => ?_⟩
  have := hsub s hs
  exact List.mem_append.mpr (Or.inl (List.mem_append.mpr (Or.inr this)))

/-- The edge label the compiler emits for a two-column inner join. -/
def innerJoinLabel (lt rt cA cB : String) : String :=
  "Type: Inner\n" ++ lt ++ "." ++ cA ++ " = " ++ rt ++ "." ++ cA ++ " AND " ++
    lt ++ "." ++ cB ++ " = " ++ rt ++ "." ++ cB

/-- Claim C4: a join node with exactly two inputs, join kind "inner" and
two declared join-attribute names extracts a JoinDetail whose
join_columns are exactly those names, and every input edge of that node
carries the identical label "Type: Inner" followed by one equality
condition per name, formatted left.col = right.col and joined by
" AND ". -/
theorem claim_C4 {v i1 i2 a1 a2 : XMLElem} {vid n1 n2 cA cB : String}
    {k : Option String} {d : ViewDetails}
    (hid : attrGet v "id" = some vid)
    (hty : attrGet v xsiTypeAttr = some "Calculation:JoinView")
    (hin : findallEl v "input" = [i1, i2])
    (hn1 : attrGet i1 "node" = some n1)
    (hn2 : attrGet i2 "node" = some n2)
    (hjk : attrGet v "joinType" = some "inner")
    (hja : findallEl v "joinAttribute" = [a1, a2])
    (ha1 : attrGet a1 "name" = some cA)
    (ha2 : attrGet a2 "name" = some cB)
    (hext : extractCalcView v = Except.ok (k, d)) :
    k = some vid ∧
    d.join_details = [⟨some "inner", stripHash n1, stripHash n2, some cA,
      [some cA, some cB]⟩] ∧
    joinLabel d = Except.ok (innerJoinLabel (stripHash n1) (stripHash n2) cA cB) ∧
    ∃ tgt, edgeTarget k d = some tgt ∧
      inputEdges k d = Except.ok (d.inputs.map (fun i =>
        Stmt.edge (stripHash i) tgt (innerJoinLabel (stripHash n1) (stripHash n2) cA cB))) ∧
      ∀ a stmts, (k, d) ∈ a.calculation_views → generateGraphvizDot a = Except.ok stmts →
        ∀ i ∈ d.inputs, Stmt.edge (stripHash i) tgt
          (innerJoinLabel (stripHash n1) (stripHash n2) cA cB) ∈ stmts := by
  obtain ⟨tyRaw, htyR, hdty, hinlen, hjd, hk, hca⟩ := extractCalcView_ok hext
  rw [hty] at htyR
  have htyRaw : tyRaw = "Calculation:JoinView" := by
    simpa using htyR.symm
  subst htyRaw
  have hdty2 : d.type = "JoinView" := by
    rw [hdty]; decide
  have hfe : findEl v "joinAttribute" = some a1 := by
    rw [findEl_eq_head, hja]; rfl
  have hcomp : extractJoinDetails v "JoinView" =
      Except.ok [⟨some "inner", stripHash n1, stripHash n2, some cA, [some cA, some cB]⟩] := by
    unfold extractJoinDetails
    rw [if_pos rfl, hin]
    simp [hn1, hn2, require, hfe, hja, ha1, ha2, hjk]
  rw [hdty2, hcomp] at hjd
  have hjdet : d.join_details =
      [⟨some "inner", stripHash n1, stripHash n2, some cA, [some cA, some cB]⟩] := by
    simpa using hjd.symm
  have hkv : k = some vid := by rw [hk, hid]
  have hjl : joinLabel d = Except.ok (innerJoinLabel (stripHash n1) (stripHash n2) cA cB) := by
    unfold joinLabel
    rw [hjdet]
    have hrep : pyReplace (pyReplace (pyReplace "inner" "outer" "Outer") "inner" "Inner")
        "text" "Text" = "Inner" := by decide
    simp [require, hrep, pyJoin, pyShow, innerJoinLabel, String.append_assoc]
  subst hkv
  obtain ⟨tgt, htgt⟩ := edgeTarget_isSome vid d
  refine ⟨rfl, hjdet, hjl, tgt, htgt, ?_, ?_⟩
  · unfold inputEdges
    exact exceptMap_eq_map (fun i _ => by rw [hjl, htgt]; simp [require])
  · intro a stmts hmem hgen i hi
    obtain ⟨l, hl, hsub⟩ := generate_view_mem hgen hmem
    obtain ⟨c, f, il, hc, hf, hil, rfl⟩ := viewStmts_parts hl
    have hil2 : il = d.inputs.map (fun i =>
        Stmt.edge (stripHash i) tgt (innerJoinLabel (stripHash n1) (stripHash n2) cA cB)) := by
      have := exceptMap_eq_map (l := d.inputs)
        (f := fun i =>
          match joinLabel d with
          | Except.error e => Except.error e
          | Except.ok lbl =>
            match require (edgeTarget (some vid) d) with
            | Except.error e => Except.error e
            | Except.ok dst => Except.ok (Stmt.edge (stripHash i) dst lbl))
        (g := fun i => Stmt.edge (stripHash i) tgt
          (innerJoinLabel (stripHash n1) (stripHash n2) cA cB))
        (fun i _ => by rw [hjl, htgt]; simp [require])
      have h2 : inputEdges (some vid) d = Except.ok il := hil
      rw [inputEdges] at h2
      rw [this] at h2
      simpa using h2.symm
    refine hsub _ ?_
    subst hil2
    exact List.mem_append.mpr (Or.inr (List.mem_map.mpr ⟨i, hi, rfl⟩))

/-- Claim C4 witness: on the concrete join document, join_columns are
["A", "B"] and both input edges of V1 carry the inner-join label with
the two equality conditions. -/
theorem claim_C4_witness :
    vjDetails.join_details = [⟨some "inner", "DS_1", "DS_2", some "A", [some "A", some "B"]⟩] ∧
    vjDetails.join_details.map (fun jd => jd.join_columns) = [[some "A", some "B"]] ∧
    Stmt.edge "DS_1" "V1" (innerJoinLabel "DS_1" "DS_2" "A" "B") ∈ stmtsOf dJoin ∧
    Stmt.edge "DS_2" "V1" (innerJoinLabel "DS_1" "DS_2" "A" "B") ∈ stmtsOf dJoin := by
  have H := @claim_C4 vJoin (XMLElem.mk "input" [("node", "#DS_1")] none [])
    (XMLElem.mk "input" [("node", "#DS_2")] none [])
    (XMLElem.mk "joinAttribute" [("name", "A")] none [])
    (XMLElem.mk "joinAttribute" [("name", "B")] none [])
    "V1" "#DS_1" "#DS_2" "A" "B" (some "V1") vjDetails
    (by decide) (by decide) (by rfl) (by decide) (by decide) (by decide) (by rfl)
    (by decide) (by decide) (by decide)
  obtain ⟨-, -, -, tgt, htgt, -, H4⟩ := H
  have htgt2 : tgt = "V1" := by
    have h0 : edgeTarget (some "V1") vjDetails = some "V1" := by decide
    exact Option.some.inj (htgt.symm.trans h0)
  subst htgt2
  have hm : (some "V1", vjDetails) ∈ (analysisOf dJoin).calculation_views := by decide
  have hg : generateGraphvizDot (analysisOf dJoin) = Except.ok (stmtsOf dJoin) := by decide
  have h1 := H4 (analysisOf dJoin) (stmtsOf dJoin) hm hg "DS_1" (by decide)
  have h2 := H4 (analysisOf dJoin) (stmtsOf dJoin) hm hg "DS_2" (by decide)
  have hs1 : stripHash "DS_1" = "DS_1" := by decide
  have hs2 : stripHash "DS_2" = "DS_2" := by decide
  have ha : stripHash "#DS_1" = "DS_1" := by decide
  have hb : stripHash "#DS_2" = "DS_2" := by decide
  rw [hs1, ha, hb] at h1
  rw [hs2, ha, hb] at h2
  exact ⟨by decide, by decide, h1, h2⟩

theorem ne_nil_isEmpty_false {α : Type} {l : List α} (h : l ≠ []) : l.isEmpty = false := by
  cases l with
  | nil => exact absurd rfl h
  | cons x xs => rfl

theorem calcNodeStmts_edge {v : String} {d : ViewDetails} {c : List Stmt}
    (hc : d.calculated_attributes ≠ []) (h : calcNodeStmts (some v) d = Except.ok c) :
    Stmt.edge (v ++ "_calc") v "" ∈ c := by
  unfold calcNodeStmts at h
  rw [ne_nil_isEmpty_false hc] at h
  simp only [Bool.false_eq_true, if_false, require, Except.ok.injEq] at h
  rw [← h]
  simp [pyShow]

theorem filterNodeStmts_edge_toCalc {v : String} {d : ViewDetails} {f : List Stmt}
    (hf : pyTruthyOpt d.filters = true) (hc : d.calculated_attributes ≠ [])
    (h : filterNodeStmts (some v) d = Except.ok f) :
    Stmt.edge (v ++ "_filter") (v ++ "_calc") "" ∈ f := by
  unfold filterNodeStmts at h
  rw [hf, ne_nil_isEmpty_false hc] at h
  simp only [if_true, Bool.false_eq_true, if_false, Except.ok.injEq] at h
  rw [← h]
  simp [pyShow]

/-- Claim C6: a node with both a filter and derived columns threads as
filter annotation, then calc annotation, then the node vertex: the calc
annotation has an edge to the node, the filter annotation an edge to the
calc annotation, and every input of the node an edge into the filter
annotation. -/
theorem claim_C6 {a : Analysis} {stmts : List Stmt} {v : String} {d : ViewDetails}
    (hmem : (some v, d) ∈ a.calculation_views)
    (hf : pyTruthyOpt d.filters = true)
    (hc : d.calculated_attributes ≠ [])
    (hgen : generateGraphvizDot a = Except.ok stmts) :
    Stmt.edge (v ++ "_calc") v "" ∈ stmts ∧
    Stmt.edge (v ++ "_filter") (v ++ "_calc") "" ∈ stmts ∧
    ∀ i ∈ d.inputs, ∃ lbl, Stmt.edge (stripHash i) (v ++ "_filter") lbl ∈ stmts := by
  obtain ⟨l, hl, hsub⟩ := generate_view_mem hgen hmem
  obtain ⟨c, f, il, hcs, hfs, his, rfl⟩ := viewStmts_parts hl
  refine ⟨?_, ?_, ?_⟩
  · exact hsub _ (List.mem_append.mpr (Or.inl (List.mem_append.mpr
      (Or.inl (calcNodeStmts_edge hc hcs)))))
  · exact hsub _ (List.mem_append.mpr (Or.inl (List.mem_append.mpr
      (Or.inr (filterNodeStmts_edge_toCalc hf hc hfs)))))
  · intro i hi
    obtain ⟨y, hy, hym⟩ := exceptMap_ok_mem his i hi
    revert hy
    cases hjl : joinLabel d with
    | error e => intro hy; simp [hjl] at hy
    | ok lbl =>
      cases het : require (edgeTarget (some v) d) with
      | error e => intro hy; simp [hjl, het] at hy
      | ok dst =>
        intro hy
        simp only [hjl, het, Except.ok.injEq] at hy
        have hdst : dst = v ++ "_filter" := by
          have h2 := require_ok het
          rw [edgeTarget, hf] at h2
          simp only [if_true, Option.some.injEq] at h2
          rw [← h2]
          rfl
        refine ⟨lbl, hsub _ (List.mem_append.mpr (Or.inr ?_))⟩
        rw [← hy, hdst] at hym
        exact hym

/-- Claim C6 witness: on the concrete document dBoth the chain
filter → calc → node is present in the compiled statements, and the
single input edge targets the filter annotation. -/
theorem claim_C6_witness :
    Stmt.edge "V1_calc" "V1" "" ∈ stmtsOf dBoth ∧
    Stmt.edge "V1_filter" "V1_calc" "" ∈ stmtsOf dBoth ∧
    ∃ lbl, Stmt.edge "DS_1" "V1_filter" lbl ∈ stmtsOf dBoth := by
  have H := @claim_C6 (analysisOf dBoth) (stmtsOf dBoth) "V1" vbDetails
    (by decide) (by decide) (by decide) (by decide)
  obtain ⟨h1, h2, h3⟩ := H
  have h4 := h3 "DS_1" (by decide)
  have hs : stripHash "DS_1" = "DS_1" := by decide
  rw [hs] at h4
  exact ⟨h1, h2, h4⟩

/-- Claim C1 counterexample: in the model of dBoth the last (only)
transformation node has a filter, so the claim predicts the output edge
source V1_filter; the compiled graph's only edge into the output vertex
has source V1_calc instead. -/
theorem claim_C1_counterexample :
    Except.map (fun st => st.filter (isEdgeTo "CV_OUT")) (pipeline dBoth) =
      Except.ok [Stmt.edge "V1_calc" "CV_OUT" ""] ∧
    Except.map (fun a => a.calculation_views.map (fun p =>
        (p.1, pyTruthyOpt p.2.filters, p.2.calculated_attributes.isEmpty)))
      (analyzeCV dBoth) = Except.ok [(some "V1", true, false)] ∧
    "V1_calc" ≠ "V1_filter" := by
  refine ⟨by decide, by decide, by decide⟩

/-- Claim C1 as amended: with an output vertex name fresh for every
node's vertex and annotation names, a model with transformation nodes
compiles to exactly one edge into the output vertex, whose source is the
last node's calc annotation if it has derived columns, else its filter
annotation if it has a filter, else the node's own vertex
(effectiveOutSource); a model without transformation nodes has no edge
into the output vertex. -/
theorem claim_C1 {a : Analysis} {stmts : List Stmt} {outId : String}
    (hgen : generateGraphvizDot a = Except.ok stmts)
    (hout : a.general.id = some outId)
    (hfresh : ∀ p ∈ a.calculation_views, outId ≠ pyShow p.1 ∧
      outId ≠ pyShow p.1 ++ "_calc" ∧ outId ≠ pyShow p.1 ++ "_filter") :
    (a.calculation_views = [] → stmts.filter (isEdgeTo outId) = []) ∧
    (∀ k d, a.calculation_views.getLast? = some (k, d) →
      ∃ src, effectiveOutSource k d = some src ∧
        stmts.filter (isEdgeTo outId) = [Stmt.edge src outId ""]) := by
  obtain ⟨p1, outId2, p2, oe, h1, h2, h3, h4, rfl⟩ := generate_ok_parts hgen
  rw [hout] at h2
  obtain rfl : outId = outId2 := Option.some.inj h2
  have hp1 : p1.filter (isEdgeTo outId) = [] := by
    rw [List.filter_eq_nil_iff]
    intro s hs
    obtain ⟨x, _, hx⟩ := exceptMap_ok_forall h1 s hs
    obtain ⟨i, lbl, sh, rfl, _⟩ := pass1For_ok_node hx
    simp [isEdgeTo]
  have hp2 : p2.filter (isEdgeTo outId) = [] := by
    rw [List.filter_eq_nil_iff]
    intro s hs
    obtain ⟨x, hxm, y, hy, hsy⟩ := exceptFlatMap_ok_forall h3 s hs
    cases s with
    | node i lbl sh => simp [isEdgeTo]
    | edge src dst lbl =>
      have hdst := viewStmts_edge_dst hy hsy
      obtain ⟨hf1, hf2, hf3⟩ := hfresh x hxm
      simp only [isEdgeTo, Bool.not_eq_true, beq_eq_false_iff_ne]
      rcases hdst with h | h | h
      · exact fun hc => hf1 (by rw [← hc, h])
      · exact fun hc => hf2 (by rw [← hc, h])
      · exact fun hc => hf3 (by rw [← hc, h])
  constructor
  · intro hnil
    have hoe : oe = [] := by
      rcases outputEdge_ok_cases h4 with ⟨-, hoe⟩ | ⟨k, d, src, hl, -, -⟩
      · exact hoe
      · rw [hnil] at hl
        simp at hl
    subst hoe
    simp only [List.filter_append, hp1, hp2, List.append_nil, List.nil_append]
    simp [isEdgeTo]
  · intro k d hlast
    rcases outputEdge_ok_cases h4 with ⟨hl, -⟩ | ⟨k2, d2, src, hl, heff, hoe⟩
    · rw [hlast] at hl
      simp at hl
    · rw [hlast] at hl
      simp only [Option.some.injEq, Prod.mk.injEq] at hl
      obtain ⟨hk2, hd2⟩ := hl
      subst hk2
      subst hd2
      refine ⟨src, heff, ?_⟩
      subst hoe
      simp only [List.filter_append, hp1, hp2, List.append_nil, List.nil_append]
      simp [isEdgeTo]

/-- Claim C1 amended witness: on dBoth (one node with both filter and
derived columns) the unique edge into the output vertex originates from
the calc annotation. -/
theorem claim_C1_witness :
    ∃ src, effectiveOutSource (some "V1") vbDetails = some src ∧
      (stmtsOf dBoth).filter (isEdgeTo "CV_OUT") = [Stmt.edge src "CV_OUT" ""] := by
  have H := @claim_C1 (analysisOf dBoth) (stmtsOf dBoth) "CV_OUT"
    (by decide) (by decide) (by decide)
  exact H.2 (some "V1") vbDetails (by decide)

theorem require_error {α : Type} {o : Option α} {e : String}
    (h : require o = Except.error e) : o = none := by
  cases o with
  | none => rfl
  | some a => simp [require] at h

theorem exceptMap_error {α β : Type} {f : α → Except String β} :
    ∀ {l : List α} {e : String}, exceptMap f l = Except.error e →
      ∃ x ∈ l, f x = Except.error e := by
  intro l
  induction l with
  | nil => intro e h; simp [exceptMap] at h
  | cons a as ih =>
    intro e h
    unfold exceptMap at h
    split at h
    · rename_i e2 he2
      cases h
      exact ⟨a, List.mem_cons_self a as, he2⟩
    · split at h
      · rename_i e2 he2
        cases h
        obtain ⟨x, hx, hfx⟩ := ih he2
        exact ⟨x, List.mem_cons_of_mem a hx, hfx⟩
      · simp at h

theorem extractDataSource_total {s : XMLElem}
    (hs : attrGet s "type" = some "CALCULATION_VIEW" →
      ∀ ru, findEl s "resourceUri" = some ru → ru.text ≠ none) :
    ∃ r, extractDataSource s = Except.ok r := by
  cases h : extractDataSource s with
  | ok r => exact ⟨r, rfl⟩
  | error e =>
    exfalso
    unfold extractDataSource at h
    split at h
    · split at h <;> simp at h
    · split at h
      · rename_i hnt hcv
        split at h
        · rename_i ru hru
          split at h
          · rename_i e2 he2
            exact hs hcv ru hru (require_error he2)
          · simp at h
        · simp at h
      · simp at h

theorem extractJoinDetails_total {v : XMLElem} {ty : String}
    (hin : ∀ i ∈ findallEl v "input", attrGet i "node" ≠ none) :
    ∃ jds, extractJoinDetails v ty = Except.ok jds := by
  cases h : extractJoinDetails v ty with
  | ok jds => exact ⟨jds, rfl⟩
  | error e =>
    exfalso
    unfold extractJoinDetails at h
    split at h
    · split at h
      · rename_i i1 i2 heq
        split at h
        · rename_i e1 he1
          exact hin i1 (by rw [heq]; simp) (require_error he1)
        · split at h
          · rename_i e2 he2
            exact hin i2 (by rw [heq]; simp) (require_error he2)
          · simp at h
      · simp at h
    · simp at h

theorem extractCalcView_total {v : XMLElem}
    (hty : attrGet v xsiTypeAttr ≠ none)
    (hin : ∀ i ∈ findallEl v "input", attrGet i "node" ≠ none) :
    ∃ kv, extractCalcView v = Except.ok kv := by
  cases h : extractCalcView v with
  | ok kv => exact ⟨kv, rfl⟩
  | error e =>
    exfalso
    unfold extractCalcView at h
    split at h
    · rename_i e1 he1
      exact hty (require_error he1)
    · rename_i tyRaw htyR
      split at h
      · rename_i e1 he1
        obtain ⟨x, hx, hfx⟩ := exceptMap_error he1
        revert hfx
        cases hn : attrGet x "node" with
        | none => intro _; exact hin x hx hn
        | some n => intro hfx; simp [hn, require] at hfx
      · rename_i inputs hinp
        split at h
        · rename_i e1 he1
          obtain ⟨jds, hjds⟩ :=
            @extractJoinDetails_total v ((pySplit tyRaw ":").getLastD "") hin
          rw [hjds] at he1
          simp at he1
        · simp at h

theorem exceptFoldViews_total :
    ∀ {l : List XMLElem} (acc : List (Option String × ViewDetails)),
      (∀ v ∈ l, ∃ kv, extractCalcView v = Except.ok kv) →
      ∃ res, exceptFoldViews l acc = Except.ok res := by
  intro l
  induction l with
  | nil => intro acc _; exact ⟨acc, rfl⟩
  | cons v vs ih =>
    intro acc hall
    obtain ⟨kv, hkv⟩ := hall v (List.mem_cons_self v vs)
    obtain ⟨res, hres⟩ := ih (dictInsert acc kv.1 kv.2)
      (fun w hw => hall w (List.mem_cons_of_mem v hw))
    exact ⟨res, by unfold exceptFoldViews; rw [hkv]; exact hres⟩

/-- Claim C2 counterexample: a well-formed document whose transformation
node lacks the type discriminator attribute makes the extractor raise
(None dereference) instead of degrading to a default. -/
theorem claim_C2_counterexample :
    analyzeCV dNoTy = Except.error "AttributeError: NoneType" := by decide

/-- Claim C2 as amended: the extractor degrades missing optional
structure to defaults and succeeds on every well-formed document, except
that it raises when a transformation node lacks its type discriminator
attribute, when an input element lacks its node attribute, or when a
referenced-view data source has a resourceUri element without text. -/
theorem claim_C2 {root : XMLElem}
    (hsrc : ∀ s ∈ sourceElems root, attrGet s "type" = some "CALCULATION_VIEW" →
      ∀ ru, findEl s "resourceUri" = some ru → ru.text ≠ none)
    (hty : ∀ v ∈ viewElems root, attrGet v xsiTypeAttr ≠ none)
    (hin : ∀ v ∈ viewElems root, ∀ i ∈ findallEl v "input", attrGet i "node" ≠ none) :
    ∃ a, analyzeCV root = Except.ok a := by
  cases h : analyzeCV root with
  | ok a => exact ⟨a, rfl⟩
  | error e =>
    exfalso
    unfold analyzeCV at h
    split at h
    · rename_i e1 he1
      obtain ⟨x, hx, hfx⟩ := exceptMap_error he1
      obtain ⟨r, hr⟩ := extractDataSource_total (hsrc x hx)
      rw [hr] at hfx
      simp at hfx
    · rename_i ds hds
      split at h
      · rename_i e1 he1
        have htotal : ∀ v ∈ viewElems root, ∃ kv, extractCalcView v = Except.ok kv :=
          fun v hv => extractCalcView_total (hty v hv) (hin v hv)
        obtain ⟨res, hres⟩ := exceptFoldViews_total [] htotal
        rw [extractCalcViews] at he1
        rw [hres] at he1
        simp at he1
      · simp at h

/-- Claim C2 amended witness: the fully attributed join document
extracts successfully. -/
theorem claim_C2_witness : ∃ a, analyzeCV dJoin = Except.ok a :=
  @claim_C2 dJoin (by decide) (by decide) (by decide)

/-- Claim C7 counterexample: a well-formed tree (the parse succeeded) on
which the extractor nevertheless raises, refuting "raises if and only if
the text is not well-formed XML". -/
theorem claim_C7_counterexample :
    analyzeCVFrom (Except.ok dNoNode) = Except.error "AttributeError: NoneType" ∧
    ∀ e, (Except.ok dNoNode : Except String XMLElem) ≠ Except.error e := by
  refine ⟨by decide, fun e h => by cases h⟩

/-- Claim C7 as amended: when parsing fails the extractor fails with the
parser diagnostic wrapped in the ValueError message and returns no
model; when parsing succeeds the result is exactly the tree extractor's
result (which can itself fail on some well-formed trees). -/
theorem claim_C7 (pr : Except String XMLElem) :
    (∀ e, pr = Except.error e →
      analyzeCVFrom pr = Except.error ("XML parsing failed: " ++ e)) ∧
    (∀ root, pr = Except.ok root → analyzeCVFrom pr = analyzeCV root) := by
  constructor
  · intro e h
    rw [h]
    rfl
  · intro root h
    rw [h]
    rfl

/-- Claim C7 amended witness: a concrete parse diagnostic is carried
into the raised error. -/
theorem claim_C7_witness :
    analyzeCVFrom (Except.error "syntax error: line 1, column 0") =
      Except.error ("XML parsing failed: " ++ "syntax error: line 1, column 0") :=
  (claim_C7 (Except.error "syntax error: line 1, column 0")).1 _ rfl

theorem analyzeCV_ok {root : XMLElem} {a : Analysis} (h : analyzeCV root = Except.ok a) :
    a.general = extractGeneral root ∧
    (∃ ds, extractDataSources root = Except.ok ds ∧ a.data_sources = dedupTNS [] ds) ∧
    (∃ vs, extractCalcViews root = Except.ok vs ∧ a.calculation_views = vs) ∧
    a.final_output_attributes = extractFinalAttrs root ∧
    a.final_output_measures = extractFinalMeasures root := by
  unfold analyzeCV at h
  split at h
  · simp at h
  · rename_i ds hds
    split at h
    · simp at h
    · rename_i vs hvs
      simp only [Except.ok.injEq] at h
      subst h
      exact ⟨rfl, ⟨ds, hds, rfl⟩, ⟨vs, hvs, rfl⟩, rfl, rfl⟩

theorem dedupTNS_filter (t : Option String × Option String × Option String) :
    ∀ (l : List DataSourceRow) (seen : List (Option String × Option String × Option String)),
      (dedupTNS seen l).filter (fun r => decide (tripleOf r = t)) =
        if t ∈ seen then [] else (l.filter (fun r => decide (tripleOf r = t))).take 1 := by
  intro l
  induction l with
  | nil =>
    intro seen
    simp [dedupTNS]
  | cons r rs ih =>
    intro seen
    unfold dedupTNS
    by_cases hmem : tripleOf r ∈ seen
    · rw [if_pos hmem, ih]
      by_cases hts : t ∈ seen
      · simp [hts]
      · have hne : ¬(tripleOf r = t) := fun hh => hts (hh ▸ hmem)
        simp [hts, List.filter_cons, hne]
    · rw [if_neg hmem]
      by_cases hrt : tripleOf r = t
      · subst hrt
        rw [List.filter_cons_of_pos (by simp)]
        rw [ih (tripleOf r :: seen)]
        rw [if_pos (List.mem_cons_self _ _), if_neg hmem]
        rw [List.filter_cons_of_pos (by simp)]
        rfl
      · rw [List.filter_cons_of_neg (by simp [hrt])]
        rw [ih (tripleOf r :: seen)]
        by_cases hts : t ∈ seen
        · rw [if_pos (List.mem_cons_of_mem _ hts), if_pos hts]
        · rw [if_neg (by simp [List.mem_cons, hts]; exact fun hh => hrt hh.symm), if_neg hts]
          rw [List.filter_cons_of_neg (by simp [hrt])]

theorem pass1For_box {a : Analysis} {nid : Option String}
    (hres : a.data_sources.filter (fun r => idMatches r.ID nid) = [])
    {s : Stmt} (h : pass1For a nid = Except.ok s) : stmtShape s = "box" := by
  unfold pass1For at h
  split at h
  · simp at h
  · split at h
    · rename_i r rest heq
      rw [hres] at heq
      simp at heq
    · split at h
      · split at h
        · simp at h
        · simp only [Except.ok.injEq] at h
          rw [← h]
          rfl
      · split at h
        · simp at h
        · simp only [Except.ok.injEq] at h
          rw [← h]
          rfl

/-- Claim C3 counterexample: dDup declares two DataSource elements with
identical (type, name, schema) triples under ids DS_1 and DS_2; the
deduplicated table keeps only DS_1, DS_2 resolves to no row, and the
compiled graph has no DS_2 vertex at all. -/
theorem claim_C3_counterexample :
    Except.map (fun l => l.map (fun r => (r.ID, tripleOf r))) (extractDataSources dDup) =
      Except.ok [(some "DS_1", (some "DATA_BASE_TABLE", some "T1", some "S1")),
        (some "DS_2", (some "DATA_BASE_TABLE", some "T1", some "S1"))] ∧
    Except.map (fun a => a.data_sources.map (fun r => r.ID)) (analyzeCV dDup) =
      Except.ok [some "DS_1"] ∧
    Except.map (fun a => a.data_sources.filter (fun r => idMatches r.ID (some "DS_2")))
      (analyzeCV dDup) = Except.ok [] ∧
    Except.map (fun st => st.filter (isNodeWithId "DS_2")) (pipeline dDup) =
      Except.ok [] := by
  refine ⟨by decide, by decide, by decide, by decide⟩

/-- Claim C3 as amended: deduplication keeps exactly the first row of a
repeated (kind, name, schema) triple; the kept row's identifier resolves
to it, but an identifier absent from the deduplicated table (such as a
dropped duplicate's distinct identifier) resolves to no row and its
vertex is classified by the fallback box branch, not as a data source. -/
theorem claim_C3 {root : XMLElem} {a : Analysis} {ds : List DataSourceRow}
    {r1 r2 : DataSourceRow}
    (hok : analyzeCV root = Except.ok a)
    (hds : extractDataSources root = Except.ok ds)
    (h1 : r1 ∈ ds) (h2 : r2 ∈ ds)
    (htr : tripleOf r2 = tripleOf r1)
    (hID : ∀ rk ∈ a.data_sources, idMatches rk.ID r2.ID = false) :
    a.data_sources.filter (fun r => decide (tripleOf r = tripleOf r1)) =
      (ds.filter (fun r => decide (tripleOf r = tripleOf r1))).take 1 ∧
    (a.data_sources.filter (fun r => decide (tripleOf r = tripleOf r1))).length = 1 ∧
    a.data_sources.filter (fun r => idMatches r.ID r2.ID) = [] ∧
    (∀ s, pass1For a r2.ID = Except.ok s → stmtShape s = "box") := by
  obtain ⟨-, ⟨ds2, hds2, hdedup⟩, -, -, -⟩ := analyzeCV_ok hok
  rw [hds] at hds2
  obtain rfl : ds = ds2 := Option.some.inj (by simpa using hds2)
  have hfil : a.data_sources.filter (fun r => decide (tripleOf r = tripleOf r1)) =
      (ds.filter (fun r => decide (tripleOf r = tripleOf r1))).take 1 := by
    rw [hdedup, dedupTNS_filter]
    simp
  have hmemfil : r1 ∈ ds.filter (fun r => decide (tripleOf r = tripleOf r1)) :=
    List.mem_filter.mpr ⟨h1, by simp⟩
  have hlen : (a.data_sources.filter (fun r => decide (tripleOf r = tripleOf r1))).length = 1 := by
    rw [hfil]
    cases hc : ds.filter (fun r => decide (tripleOf r = tripleOf r1)) with
    | nil => rw [hc] at hmemfil; simp at hmemfil
    | cons x xs => rfl
  have hres : a.data_sources.filter (fun r => idMatches r.ID r2.ID) = [] := by
    rw [List.filter_eq_nil_iff]
    intro rk hrk
    simp [hID rk hrk]
  exact ⟨hfil, hlen, hres, fun s hs => pass1For_box hres hs⟩

/-- Claim C3 amended witness: on dDup the deduplicated table has exactly
one row of the shared triple and DS_2 resolves to no row. -/
theorem claim_C3_witness :
    ((analysisOf dDup).data_sources.filter (fun r => decide (tripleOf r =
      (some "DATA_BASE_TABLE", some "T1", some "S1")))).length = 1 ∧
    (analysisOf dDup).data_sources.filter (fun r => idMatches r.ID (some "DS_2")) = [] := by
  have H := @claim_C3 dDup (analysisOf dDup)
    [⟨some "DS_1", some "T1", some "DATA_BASE_TABLE", some "S1"⟩,
     ⟨some "DS_2", some "T1", some "DATA_BASE_TABLE", some "S1"⟩]
    ⟨some "DS_1", some "T1", some "DATA_BASE_TABLE", some "S1"⟩
    ⟨some "DS_2", some "T1", some "DATA_BASE_TABLE", some "S1"⟩
    (by decide) (by decide) (by decide) (by decide) (by decide) (by decide)
  exact ⟨H.2.1, H.2.2.1⟩

/-- Claim C8 counterexample: a well-formed document with no logicalModel
section on which extraction raises (its node lacks the type
discriminator), so it yields neither an empty FinalSchema nor a compiled
graph. -/
theorem claim_C8_counterexample :
    findEl dC8bad "logicalModel" = none ∧
    analyzeCV dC8bad = Except.error "AttributeError: NoneType" := by
  refine ⟨by rfl, by decide⟩

/-- Claim C8 as amended: when extraction of a document without a
logicalModel section succeeds, both final-output sequences are empty,
and when graph compilation also succeeds (with the output name fresh),
the compiled statements contain exactly one node with the output name,
labeled "Output\n(0 columns)", whose label contains "0 columns". -/
theorem claim_C8 {root : XMLElem} {a : Analysis} {stmts : List Stmt} {outId : String}
    (hlm : findEl root "logicalModel" = none)
    (hok : analyzeCV root = Except.ok a)
    (hgen : generateGraphvizDot a = Except.ok stmts)
    (hout : a.general.id = some outId)
    (hfresh1 : ∀ nid ∈ allNodes a, nid ≠ some outId)
    (hfresh2 : ∀ p ∈ a.calculation_views, outId ≠ pyShow p.1 ++ "_calc" ∧
      outId ≠ pyShow p.1 ++ "_filter") :
    a.final_output_attributes = [] ∧ a.final_output_measures = [] ∧
    stmts.filter (isNodeWithId outId) = [Stmt.node outId "Output\\n(0 columns)" "oval"] ∧
    strContains "Output\\n(0 columns)" "0 columns" = true := by
  obtain ⟨-, -, -, hattr, hmeas⟩ := analyzeCV_ok hok
  have hattr2 : a.final_output_attributes = [] := by
    rw [hattr]
    unfold extractFinalAttrs
    rw [hlm]
  have hmeas2 : a.final_output_measures = [] := by
    rw [hmeas]
    unfold extractFinalMeasures
    rw [hlm]
  have hlbl : outputLabel a = "Output\\n(0 columns)" := by
    unfold outputLabel
    rw [hattr2, hmeas2]
    decide
  obtain ⟨p1, outId2, p2, oe, h1, h2, h3, h4, rfl⟩ := generate_ok_parts hgen
  rw [hout] at h2
  obtain rfl : outId = outId2 := Option.some.inj h2
  have hp1 : p1.filter (isNodeWithId outId) = [] := by
    rw [List.filter_eq_nil_iff]
    intro s hs
    obtain ⟨x, hxm, hx⟩ := exceptMap_ok_forall h1 s hs
    obtain ⟨i, lbl, sh, rfl, hxi⟩ := pass1For_ok_node hx
    have hne := hfresh1 x hxm
    rw [hxi] at hne
    simp only [isNodeWithId, Bool.not_eq_true, beq_eq_false_iff_ne]
    exact fun hc => hne (by rw [hc])
  have hp2 : p2.filter (isNodeWithId outId) = [] := by
    rw [List.filter_eq_nil_iff]
    intro s hs
    obtain ⟨x, hxm, y, hy, hsy⟩ := exceptFlatMap_ok_forall h3 s hs
    cases s with
    | edge src dst lbl => simp [isNodeWithId]
    | node i lbl sh =>
      have hi := viewStmts_node_id hy hsy
      obtain ⟨hf1, hf2⟩ := hfresh2 x hxm
      simp only [isNodeWithId, Bool.not_eq_true, beq_eq_false_iff_ne]
      rcases hi with h | h
      · exact fun hc => hf1 (by rw [← hc, h])
      · exact fun hc => hf2 (by rw [← hc, h])
  have hoe : oe.filter (isNodeWithId outId) = [] := by
    rcases outputEdge_ok_cases h4 with ⟨-, rfl⟩ | ⟨k, d, src, -, -, rfl⟩
    · rfl
    · simp [isNodeWithId]
  refine ⟨hattr2, hmeas2, ?_, by decide⟩
  simp only [List.filter_append, hp1, hp2, hoe, List.append_nil, List.nil_append]
  rw [hlbl]
  simp [isNodeWithId]

/-- Claim C8 amended witness: the concrete no-logicalModel document
dNoLM extracts to an empty final schema and compiles with exactly one
output vertex labeled with 0 columns. -/
theorem claim_C8_witness :
    (analysisOf dNoLM).final_output_attributes = [] ∧
    (analysisOf dNoLM).final_output_measures = [] ∧
    (stmtsOf dNoLM).filter (isNodeWithId "CV_OUT") =
      [Stmt.node "CV_OUT" "Output\\n(0 columns)" "oval"] ∧
    strContains "Output\\n(0 columns)" "0 columns" = true :=
  @claim_C8 dNoLM (analysisOf dNoLM) (stmtsOf dNoLM) "CV_OUT"
    (by rfl) (by decide) (by decide) (by decide) (by decide) (by decide)
